import Mathlib

/-!
Shallow embedding of the chesster game-session / line-exploration core:
the chess.js wrapper hook (useChessGame in src/web/src/hooks), the
exploration hook (useExploration.ts), the coordinator (useGameState.ts)
and the GamePage guard handlers.  The rules library (chess.js) is an
external collaborator: it is modelled by an abstract Engine record whose
operations return Option (None models a thrown-and-caught illegal-move
or parse error), exactly the contract the wrappers rely on.  A concrete
demoEngine instance (a small faithful fragment of chess) is used for
witnesses and counterexamples.
-/

/-- Coordinate move object passed to the rules engine: from-square,
to-square, optional promotion piece (useChessGame.makeMove arguments and
the UCI slicing in useGameState.handleExplore). -/
structure CoordMove where
  fromSq : String
  toSq : String
  promo : Option String
  deriving DecidableEq, Repr

/-- UCI token slicing from useGameState.handleExplore: from = chars 0-1,
to = chars 2-3, promotion = char 4 when the token is longer than 4. -/
def parseUci (u : String) : CoordMove :=
  { fromSq := (u.toList.take 2).asString
    toSq := ((u.toList.drop 2).take 2).asString
    promo := if u.length > 4 then some ((u.toList.drop 4).take 1).asString else none }

/-- Abstract Move Engine (the chess.js library behind the adapter).
applyCoord applies a coordinate move, returning the SAN text recorded in
history plus the new position, or none when the move is illegal or
malformed (chess.js throws; every caller in the source catches).
applySan applies one SAN history entry (used when replaying history). -/
structure Engine where
  Pos : Type
  init : Pos
  applyCoord : Pos → CoordMove → Option (String × Pos)
  applySan : Pos → String → Option Pos
  isOver : Pos → Bool
  whiteToMove : Pos → Bool

/-- Replay of SAN moves that also records, per move, the position reached
(the shape of the chess.js internal history after a successful load). -/
def replayHist (e : Engine) (p : e.Pos) : List String → Option (List (String × e.Pos))
  | [] => some []
  | s :: rest =>
    match e.applySan p s with
    | none => none
    | some q => (replayHist e q rest).map (fun l => (s, q) :: l)

/-- Position after a list of SAN moves, none when some move is illegal. -/
def replaySan (e : Engine) (p : e.Pos) : List String → Option e.Pos
  | [] => some p
  | s :: rest =>
    match e.applySan p s with
    | none => none
    | some q => replaySan e q rest

/-- Fold of UCI tokens as performed by handleExplore and the exploration
navigation handlers: each token is attempted and a failing token leaves
the position unchanged (the per-move try/catch that only logs). -/
def replaySkip (e : Engine) (p : e.Pos) : List String → e.Pos
  | [] => p
  | u :: rest =>
    match e.applyCoord p (parseUci u) with
    | some sq => replaySkip e sq.2 rest
    | none => replaySkip e p rest

/-- Strict fold of UCI tokens: none as soon as one token is illegal.
This is the specification-side reading of applying a line. -/
def replayStrict (e : Engine) (p : e.Pos) : List String → Option e.Pos
  | [] => some p
  | u :: rest =>
    match e.applyCoord p (parseUci u) with
    | some sq => replayStrict e sq.2 rest
    | none => none

/-- Position at the end of a recorded history, or the base position when
the history is empty (chess.js game.fen()). -/
def lastPos (e : Engine) (p : e.Pos) : List (String × e.Pos) → e.Pos
  | [] => p
  | x :: l => lastPos e x.2 l

/-- One mutable chess.js instance: the position it was last loaded from
plus the (SAN, resulting position) entries applied since that load. -/
structure ChessInst (e : Engine) where
  base : e.Pos
  hist : List (String × e.Pos)

/-- Current position of the instance (game.fen()). -/
def instCur (e : Engine) (g : ChessInst e) : e.Pos :=
  lastPos e g.base g.hist

/-- SAN history of the instance (game.history()). -/
def instSans (e : Engine) (g : ChessInst e) : List String :=
  g.hist.map Prod.fst

/-- game.move on a coordinate move: pushes a history entry on success,
none when chess.js rejects the move. -/
def instMove (e : Engine) (g : ChessInst e) (c : CoordMove) : Option (ChessInst e) :=
  match e.applyCoord (instCur e g) c with
  | some sq => some { g with hist := g.hist ++ [sq] }
  | none => none

/-- game.undo(): pops the last history entry, none when empty. -/
def instUndo (e : Engine) (g : ChessInst e) : Option (ChessInst e) :=
  if g.hist.isEmpty then none else some { g with hist := g.hist.dropLast }

/-- game.reset(): initial position, empty history. -/
def instReset (e : Engine) : ChessInst e :=
  { base := e.init, hist := [] }

/-- game.load(fen) on a fen text that encodes a valid position: the board
is set to that position and the history is cleared. -/
def instLoad (e : Engine) (p : e.Pos) : ChessInst e :=
  { base := p, hist := [] }

/-- React snapshot published by useChessGame.  A fen string stored here
always comes from game.fen(), so it is modelled by the position it
encodes; turn is modelled as a white-to-move flag. -/
structure ChessGameState (e : Engine) where
  fen : e.Pos
  moveHistory : List String
  currentMoveIndex : Int
  isGameOver : Bool
  whiteTurn : Bool

/-- updateGameState in useChessGame: republish every field from the
mutable instance. -/
def snapState (e : Engine) (g : ChessInst e) : ChessGameState e :=
  { fen := instCur e g
    moveHistory := instSans e g
    currentMoveIndex := ((instSans e g).length : Int) - 1
    isGameOver := e.isOver (instCur e g)
    whiteTurn := e.whiteToMove (instCur e g) }

/-- The useChessGame hook state: the mutable chess.js instance plus the
published React snapshot. -/
structure ChessGame (e : Engine) where
  inst : ChessInst e
  state : ChessGameState e

/-- Hook initial state: new Chess() and the snapshot taken from it. -/
def initChessGame (e : Engine) : ChessGame e :=
  { inst := instReset e, state := snapState e (instReset e) }

/-- useChessGame.makeMove: tries the move with promotion defaulted to q;
on success updates the snapshot and returns true, otherwise the caught
failure returns false with everything untouched. -/
def makeMove (e : Engine) (g : ChessGame e) (fromSq toSq : String)
    (promo : Option String) : ChessGame e × Bool :=
  match instMove e g.inst ⟨fromSq, toSq, some (promo.getD "q")⟩ with
  | some g2 => ({ inst := g2, state := snapState e g2 }, true)
  | none => (g, false)

/-- useChessGame.undoMove: game.undo(), snapshot refresh on success. -/
def undoMove (e : Engine) (g : ChessGame e) : ChessGame e × Bool :=
  match instUndo e g.inst with
  | some g2 => ({ inst := g2, state := snapState e g2 }, true)
  | none => (g, false)

/-- useChessGame.resetGame. -/
def resetGame (e : Engine) (g : ChessGame e) : ChessGame e :=
  { inst := instReset e, state := snapState e (instReset e) }

/-- useChessGame.loadFen: the fen text argument is modelled by its parse,
some p for a text encoding position p, none for an invalid text (where
game.load throws and the catch returns false with state untouched). -/
def loadFen (e : Engine) (g : ChessGame e) (f : Option e.Pos) : ChessGame e × Bool :=
  match f with
  | some p => ({ inst := instLoad e p, state := snapState e (instLoad e p) }, true)
  | none => (g, false)

/-- Modelled from the spec: chess.js PGN parsing and serialization are
external library code not under src.  A portable game record is
represented by its move sequence (the only content the core observes);
loadPgn replays it from the initial position and replaces the instance
wholesale, an unparseable or illegal record leaves everything untouched
and returns false. -/
def loadPgn (e : Engine) (g : ChessGame e) (record : List String) : ChessGame e × Bool :=
  match replayHist e e.init record with
  | some prs =>
    ({ inst := { base := e.init, hist := prs },
       state := snapState e { base := e.init, hist := prs } }, true)
  | none => (g, false)

/-- Modelled from the spec: game.pgn() serializes the canonical history;
its move sequence is the instance history. -/
def getPgn (e : Engine) (g : ChessGame e) : List String :=
  instSans e g.inst

/-- useChessGame.gotoMove: out-of-range indices return with nothing
touched; in range the instance is reset and the snapshot history prefix
is replayed move by move (no try/catch there: none models the exception
escaping when a history entry fails to replay). -/
def gotoMove (e : Engine) (g : ChessGame e) (idx : Int) : Option (ChessGame e) :=
  if idx < -1 ∨ (g.state.moveHistory.length : Int) ≤ idx then some g
  else
    match replayHist e e.init (g.state.moveHistory.take (idx + 1).toNat) with
    | none => none
    | some prs =>
      some { inst := { base := e.init, hist := prs }
             state := { fen := instCur e { base := e.init, hist := prs }
                        moveHistory := g.state.moveHistory
                        currentMoveIndex := idx
                        isGameOver := e.isOver (instCur e { base := e.init, hist := prs })
                        whiteTurn := e.whiteToMove (instCur e { base := e.init, hist := prs }) } }

/-- ChessLine from src/web/src/types/index.ts. -/
structure ChessLine where
  description : String
  moves : List String
  movesSan : List String
  evaluation : Option Int
  deriving DecidableEq, Repr

/-- ExplorationState from useExploration.ts; savedFen is the stored fen
string modelled by its parse (none for the empty-string default). -/
structure ExplorationState (e : Engine) where
  isActive : Bool
  currentLine : Option ChessLine
  currentPosition : Int
  savedFen : Option e.Pos
  savedMoveIndex : Int
  savedMoveHistory : List String

/-- Inactive default of the exploration hook state. -/
def initExploration (e : Engine) : ExplorationState e :=
  { isActive := false, currentLine := none, currentPosition := 0,
    savedFen := none, savedMoveIndex := -1, savedMoveHistory := [] }

/-- useExploration.enterExploration. -/
def enterExploration (e : Engine) (line : ChessLine) (curFen : e.Pos)
    (curIdx : Int) (hist : List String) : ExplorationState e :=
  { isActive := true, currentLine := some line, currentPosition := 0,
    savedFen := some curFen, savedMoveIndex := curIdx, savedMoveHistory := hist }

/-- Record returned by exitExploration. -/
structure SavedSnapshot (e : Engine) where
  fen : Option e.Pos
  moveIndex : Int
  moveHistory : List String

/-- useExploration.exitExploration: returns the saved snapshot and clears
every field back to the inactive default. -/
def exitExploration (e : Engine) (st : ExplorationState e) :
    SavedSnapshot e × ExplorationState e :=
  (⟨st.savedFen, st.savedMoveIndex, st.savedMoveHistory⟩, initExploration e)

/-- The clamp bound of nextPosition: currentLine?.moves.length || 1,
a JavaScript or that turns both a missing line and a zero length into 1. -/
def lineLenOr1 : Option ChessLine → Int
  | none => 1
  | some l => if l.moves.length = 0 then 1 else (l.moves.length : Int)

/-- useExploration.nextPosition. -/
def nextPosition (e : Engine) (st : ExplorationState e) : ExplorationState e :=
  { st with currentPosition := min (st.currentPosition + 1) (lineLenOr1 st.currentLine - 1) }

/-- useExploration.previousPosition. -/
def previousPosition (e : Engine) (st : ExplorationState e) : ExplorationState e :=
  { st with currentPosition := max (st.currentPosition - 1) 0 }

/-- Combined state owned by useGameState: the chess hook and the
exploration hook. -/
structure GameSystem (e : Engine) where
  chess : ChessGame e
  explo : ExplorationState e

/-- Fresh page state. -/
def initSystem (e : Engine) : GameSystem e :=
  { chess := initChessGame e, explo := initExploration e }

/-- useGameState.handleExplore: snapshot current state into the
exploration hook, fold the whole line over a scratch instance seeded with
the current fen (every token attempted, failures only logged), then load
the resulting fen into the game hook. -/
def handleExplore (e : Engine) (sys : GameSystem e) (line : ChessLine) : GameSystem e :=
  let explo2 := enterExploration e line sys.chess.state.fen
    sys.chess.state.currentMoveIndex sys.chess.state.moveHistory
  let finalPos := replaySkip e sys.chess.state.fen line.moves
  { chess := (loadFen e sys.chess (some finalPos)).1, explo := explo2 }

/-- useGameState.handleExplorationNext: guarded advance, then a stateless
replay of the line up to the new position from the saved fen.  A missing
saved fen would make the scratch constructor throw, modelled by none. -/
def handleExplorationNext (e : Engine) (sys : GameSystem e) : Option (GameSystem e) :=
  match sys.explo.currentLine with
  | none => some sys
  | some line =>
    if (line.moves.length : Int) ≤ sys.explo.currentPosition + 1 then some sys
    else
      match sys.explo.savedFen with
      | none => none
      | some sp =>
        let disp := replaySkip e sp (line.moves.take (sys.explo.currentPosition + 1 + 1).toNat)
        some { chess := (loadFen e sys.chess (some disp)).1
               explo := nextPosition e sys.explo }

/-- useGameState.handleExplorationPrevious: guarded retreat with the same
stateless replay from the saved fen. -/
def handleExplorationPrevious (e : Engine) (sys : GameSystem e) : Option (GameSystem e) :=
  match sys.explo.currentLine with
  | none => some sys
  | some line =>
    if sys.explo.currentPosition ≤ 0 then some sys
    else
      match sys.explo.savedFen with
      | none => none
      | some sp =>
        let disp := replaySkip e sp (line.moves.take (sys.explo.currentPosition - 1 + 1).toNat)
        some { chess := (loadFen e sys.chess (some disp)).1
               explo := previousPosition e sys.explo }

/-- useGameState.handleExitExploration: take the saved snapshot, load the
saved fen back, then ask gotoMove to restore the saved index (none when
that replay throws). -/
def handleExitExploration (e : Engine) (sys : GameSystem e) : Option (GameSystem e) :=
  let saved := (exitExploration e sys.explo).1
  let chess1 := (loadFen e sys.chess saved.fen).1
  (gotoMove e chess1 saved.moveIndex).map
    (fun chess2 => { chess := chess2, explo := (exitExploration e sys.explo).2 })

/-- GamePage.handleMove: board moves are refused with false while
exploration is active. -/
def handleMove (e : Engine) (sys : GameSystem e) (fromSq toSq : String) :
    GameSystem e × Bool :=
  if sys.explo.isActive then (sys, false)
  else
    let r := makeMove e sys.chess fromSq toSq none
    ({ sys with chess := r.1 }, r.2)

/-- GamePage.handleNewGame: guarded by an alert while exploring; with a
nonempty history the reset further asks window.confirm, modelled by the
confirmAnswer argument. -/
def handleNewGame (e : Engine) (sys : GameSystem e) (confirmAnswer : Bool) : GameSystem e :=
  if sys.explo.isActive then sys
  else if 0 < sys.chess.state.moveHistory.length then
    if confirmAnswer then { sys with chess := resetGame e sys.chess } else sys
  else { sys with chess := resetGame e sys.chess }

/-- GamePage.handleUndo: no-op while exploring. -/
def handleUndo (e : Engine) (sys : GameSystem e) : GameSystem e :=
  if sys.explo.isActive then sys
  else { sys with chess := (undoMove e sys.chess).1 }

/-- GamePage.handleResign: alerts only, the game state is never touched
in either branch. -/
def handleResign (e : Engine) (sys : GameSystem e) (confirmAnswer : Bool) : GameSystem e :=
  if sys.explo.isActive then sys
  else if confirmAnswer then sys else sys

/-- GamePage.handleMoveClick: history-click navigation, refused while
exploring. -/
def handleMoveClick (e : Engine) (sys : GameSystem e) (idx : Int) : Option (GameSystem e) :=
  if sys.explo.isActive then some sys
  else (gotoMove e sys.chess idx).map (fun c => { sys with chess := c })

/-- Concrete Move Engine over a small faithful fragment of chess, used
for witnesses and counterexamples.  Positions are encoded by the SAN
history from the standard initial position; from the initial position
e2e4 is legal (SAN e4), after it e7e5 is legal (SAN e5), and every other
input is rejected, as chess.js does on those inputs. -/
@[reducible] def demoApplyCoord (p : List String) (c : CoordMove) :
    Option (String × List String) :=
  if p = [] ∧ c.fromSq = "e2" ∧ c.toSq = "e4" then some ("e4", ["e4"])
  else if p = ["e4"] ∧ c.fromSq = "e7" ∧ c.toSq = "e5" then some ("e5", ["e4", "e5"])
  else none

/-- SAN application of the same fragment. -/
@[reducible] def demoApplySan (p : List String) (s : String) : Option (List String) :=
  if p = [] ∧ s = "e4" then some ["e4"]
  else if p = ["e4"] ∧ s = "e5" then some ["e4", "e5"]
  else none

/-- The demo engine record. -/
@[reducible] def demoEngine : Engine :=
  { Pos := List String
    init := []
    applyCoord := demoApplyCoord
    applySan := demoApplySan
    isOver := fun _ => false
    whiteToMove := fun p => p.length % 2 == 0 }

/-- Concrete lines and states used by the witnesses and counterexamples. -/
def demoLine1 : ChessLine :=
  { description := "", moves := ["e7e5"], movesSan := [], evaluation := none }

/-- Line whose first token is malformed and whose second token is legal
from the initial position. -/
def demoLineBad : ChessLine :=
  { description := "", moves := ["zzzz", "e2e4"], movesSan := [], evaluation := none }

/-- Two-ply legal line from the initial position. -/
def demoLine2 : ChessLine :=
  { description := "", moves := ["e2e4", "e7e5"], movesSan := [], evaluation := none }

/-- Line with an empty move list. -/
def demoLineEmpty : ChessLine :=
  { description := "", moves := [], movesSan := [], evaluation := none }

/-- Fresh page state over the demo engine. -/
def demoSys0 : GameSystem demoEngine := initSystem demoEngine

/-- After playing e2e4 on the board. -/
def demoSys1 : GameSystem demoEngine := (handleMove demoEngine demoSys0 "e2" "e4").1

/-- After entering exploration of demoLine1 from demoSys1. -/
def demoSys2 : GameSystem demoEngine := handleExplore demoEngine demoSys1 demoLine1

/-- Exploring demoLine2 from the fresh state. -/
def demoSysE : GameSystem demoEngine := handleExplore demoEngine demoSys0 demoLine2

/-- The same episode advanced to currentPosition 1. -/
def demoSysE2 : GameSystem demoEngine :=
  { chess := demoSysE.chess, explo := { demoSysE.explo with currentPosition := 1 } }

/-- Chess hook state after one legal move. -/
def demoCG1 : ChessGame demoEngine :=
  (makeMove demoEngine (initChessGame demoEngine) "e2" "e4" none).1

/-- Chess hook state after two legal moves. -/
def demoCG2 : ChessGame demoEngine :=
  (makeMove demoEngine demoCG1 "e7" "e5" none).1

/-- The SAN texts of a successfully recorded replay are the replayed
moves themselves. -/
theorem replayHist_map_fst (e : Engine) (ms : List String) :
    ∀ (p : e.Pos) (l : List (String × e.Pos)),
      replayHist e p ms = some l → l.map Prod.fst = ms := by
  induction ms with
  | nil =>
    intro p l h
    simp only [replayHist, Option.some.injEq] at h
    subst h
    rfl
  | cons s rest ih =>
    intro p l h
    simp only [replayHist] at h
    split at h
    · simp at h
    · rename_i q hq
      rw [Option.map_eq_some'] at h
      obtain ⟨l2, hr, hl⟩ := h
      subst hl
      simp [ih q l2 hr]

/-- Replaying SAN moves is the recorded replay followed by reading off
the last recorded position. -/
theorem replaySan_eq_replayHist (e : Engine) (ms : List String) :
    ∀ p : e.Pos, replaySan e p ms = (replayHist e p ms).map (fun l => lastPos e p l) := by
  induction ms with
  | nil => intro p; rfl
  | cons s rest ih =>
    intro p
    simp only [replaySan, replayHist]
    cases hq : e.applySan p s with
    | none => rfl
    | some q =>
      show replaySan e q rest = Option.map _ (Option.map _ (replayHist e q rest))
      rw [ih q, Option.map_map]
      rfl

/-- A strict replay that succeeds is an initial segment of the skipping
fold: the fold continues from the reached position. -/
theorem skip_of_strict (e : Engine) (ms : List String) :
    ∀ (p q : e.Pos), replayStrict e p ms = some q →
      ∀ rest, replaySkip e p (ms ++ rest) = replaySkip e q rest := by
  induction ms with
  | nil =>
    intro p q h rest
    simp only [replayStrict, Option.some.injEq] at h
    subst h
    rfl
  | cons u tail ih =>
    intro p q h rest
    simp only [replayStrict] at h
    cases hq : e.applyCoord p (parseUci u) with
    | none => rw [hq] at h; simp at h
    | some sq =>
      rw [hq] at h
      show replaySkip e p (u :: (tail ++ rest)) = replaySkip e q rest
      simp only [replaySkip]
      rw [hq]
      exact ih sq.2 q h rest

/-- On a fully legal move list the skipping fold computes exactly the
strict replay result. -/
theorem skip_eq_of_strict (e : Engine) (ms : List String) (p q : e.Pos)
    (h : replayStrict e p ms = some q) : replaySkip e p ms = q := by
  have h2 := skip_of_strict e ms p q h []
  rw [List.append_nil] at h2
  exact h2

/-- A failing token leaves the skipping fold where it was. -/
theorem skip_cons_illegal (e : Engine) (p : e.Pos) (u : String) (rest : List String)
    (h : e.applyCoord p (parseUci u) = none) :
    replaySkip e p (u :: rest) = replaySkip e p rest := by
  simp only [replaySkip]
  rw [h]

/-- Dropping the last recorded move and replaying gives the last position
of the shortened record. -/
theorem replaySan_dropLast (e : Engine) (ms : List String) :
    ∀ (p : e.Pos) (prs : List (String × e.Pos)),
      replayHist e p ms = some prs →
      replaySan e p ms.dropLast = some (lastPos e p prs.dropLast) := by
  induction ms with
  | nil =>
    intro p prs h
    simp only [replayHist, Option.some.injEq] at h
    subst h
    rfl
  | cons s rest ih =>
    intro p prs h
    simp only [replayHist] at h
    split at h
    · simp at h
    · rename_i q hq
      rw [Option.map_eq_some'] at h
      obtain ⟨l2, hr, hl⟩ := h
      subst hl
      cases rest with
      | nil =>
        simp only [replayHist, Option.some.injEq] at hr
        subst hr
        rfl
      | cons s2 rest2 =>
        have hl2ne : l2 ≠ [] := by
          intro hnil
          have := replayHist_map_fst e (s2 :: rest2) q l2 hr
          rw [hnil] at this
          simp at this
        cases l2 with
        | nil => exact absurd rfl hl2ne
        | cons x xs =>
          show replaySan e p (s :: (s2 :: rest2).dropLast) = _
          simp only [replaySan]
          rw [hq]
          exact ih q (x :: xs) hr

/-- One navigation click: true is next, false is previous. -/
def navStep (e : Engine) (st : ExplorationState e) (b : Bool) : ExplorationState e :=
  if b then nextPosition e st else previousPosition e st

/-- On a line with at least one move the clamp bound is the length. -/
theorem lineLenOr1_of_ne_nil (line : ChessLine) (hne : line.moves ≠ []) :
    lineLenOr1 (some line) = (line.moves.length : Int) := by
  have hlen : line.moves.length ≠ 0 := fun h0 => hne (List.length_eq_zero.mp h0)
  simp [lineLenOr1, hlen]

/-- One navigation click preserves the line and keeps the clamp bounds. -/
theorem navStep_inv (e : Engine) (line : ChessLine) (hne : line.moves ≠ [])
    (st : ExplorationState e) (b : Bool) (h1 : st.currentLine = some line)
    (h2 : 0 ≤ st.currentPosition)
    (h3 : st.currentPosition ≤ (line.moves.length : Int) - 1) :
    (navStep e st b).currentLine = some line ∧
    0 ≤ (navStep e st b).currentPosition ∧
    (navStep e st b).currentPosition ≤ (line.moves.length : Int) - 1 := by
  have hlen : (1 : Int) ≤ (line.moves.length : Int) := by
    have : line.moves.length ≠ 0 := fun h0 => hne (List.length_eq_zero.mp h0)
    omega
  cases b with
  | false =>
    refine ⟨h1, ?_, ?_⟩
    · show 0 ≤ max (st.currentPosition - 1) 0
      exact le_max_right _ _
    · show max (st.currentPosition - 1) 0 ≤ (line.moves.length : Int) - 1
      exact max_le (by omega) (by omega)
  | true =>
    refine ⟨h1, ?_, ?_⟩
    · show 0 ≤ min (st.currentPosition + 1) (lineLenOr1 st.currentLine - 1)
      rw [h1, lineLenOr1_of_ne_nil line hne]
      exact le_min (by omega) (by omega)
    · show min (st.currentPosition + 1) (lineLenOr1 st.currentLine - 1) ≤
        (line.moves.length : Int) - 1
      rw [h1, lineLenOr1_of_ne_nil line hne]
      exact min_le_right _ _

/-- Any sequence of navigation clicks preserves the line and the clamp
bounds. -/
theorem navFold_inv (e : Engine) (line : ChessLine) (hne : line.moves ≠ [])
    (ops : List Bool) :
    ∀ st : ExplorationState e, st.currentLine = some line →
      0 ≤ st.currentPosition →
      st.currentPosition ≤ (line.moves.length : Int) - 1 →
      (ops.foldl (navStep e) st).currentLine = some line ∧
      0 ≤ (ops.foldl (navStep e) st).currentPosition ∧
      (ops.foldl (navStep e) st).currentPosition ≤ (line.moves.length : Int) - 1 := by
  induction ops with
  | nil => intro st h1 h2 h3; exact ⟨h1, h2, h3⟩
  | cons b rest ih =>
    intro st h1 h2 h3
    obtain ⟨g1, g2, g3⟩ := navStep_inv e line hne st b h1 h2 h3
    exact ih (navStep e st b) g1 g2 g3

/-- C1: the claim says handleExplore then handleExitExploration restores
fen, currentMoveIndex and moveHistory exactly.  The code disagrees: on
exit, loadFen(saved.fen) clears the chess.js history, so the following
gotoMove(saved.moveIndex) sees an empty history, is out of range for any
saved index of at least 0, and does nothing; the pre-entry history of one
move is lost and the index stays at -1, although the comment in
handleExitExploration says the saved game state is being restored.  This
theorem evaluates the code at the failing input: play e2e4, explore a
one-move line, exit. -/
theorem exit_exploration_loses_history :
    demoSys1.chess.state.moveHistory = ["e4"] ∧
    demoSys1.chess.state.currentMoveIndex = 0 ∧
    demoSys2.explo.savedMoveHistory = ["e4"] ∧
    demoSys2.explo.savedMoveIndex = 0 ∧
    (handleExitExploration demoEngine demoSys2).map
      (fun s => s.chess.state.moveHistory) = some [] ∧
    (handleExitExploration demoEngine demoSys2).map
      (fun s => s.chess.state.currentMoveIndex) = some (-1) ∧
    (handleExitExploration demoEngine demoSys2).map
      (fun s => s.chess.state.fen) = some ["e4"] := by
  decide

/-- C2 counterexample: the claim says application stops at the first
illegal token, so for a line whose token 0 is malformed the displayed
position would equal the pre-entry position (the replay of the empty
legal prefix).  The code instead keeps attempting the remaining tokens:
on the line zzzz, e2e4 from the initial position the displayed position
is the one after e2e4, not the pre-entry position. -/
theorem handleExplore_continues_after_illegal_cex :
    demoEngine.applyCoord demoSys0.chess.state.fen (parseUci "zzzz") = none ∧
    replayStrict demoEngine demoSys0.chess.state.fen (demoLineBad.moves.take 0) =
      some demoSys0.chess.state.fen ∧
    (handleExplore demoEngine demoSys0 demoLineBad).chess.state.fen = ["e4"] ∧
    (handleExplore demoEngine demoSys0 demoLineBad).chess.state.fen ≠
      demoSys0.chess.state.fen := by
  decide

/-- C2 amended: on the first illegal token the application does not stop;
the token is skipped (only logged) and the remaining tokens are still
attempted, so the displayed position is the skipping fold of the rest of
the line from the position reached by the legal prefix, and no exception
escapes (handleExplore is total). -/
theorem handleExplore_skips_illegal (e : Engine) (sys : GameSystem e)
    (line : ChessLine) (i : Nat) (q : e.Pos) (hi : i < line.moves.length)
    (hpre : replayStrict e sys.chess.state.fen (line.moves.take i) = some q)
    (hbad : e.applyCoord q (parseUci (line.moves.get ⟨i, hi⟩)) = none) :
    (handleExplore e sys line).chess.state.fen =
      replaySkip e q (line.moves.drop (i + 1)) := by
  have h1 : (handleExplore e sys line).chess.state.fen =
      replaySkip e sys.chess.state.fen line.moves := rfl
  rw [h1]
  conv_lhs => rw [← List.take_append_drop i line.moves]
  rw [skip_of_strict e (line.moves.take i) sys.chess.state.fen q hpre]
  rw [List.drop_eq_getElem_cons hi]
  rw [List.get_eq_getElem] at hbad
  exact skip_cons_illegal e q _ _ hbad

/-- C2 witness for the amended theorem, at the counterexample input. -/
theorem handleExplore_skips_illegal_witness :
    (handleExplore demoEngine demoSys0 demoLineBad).chess.state.fen =
      replaySkip demoEngine demoSys0.chess.state.fen (demoLineBad.moves.drop 1) :=
  handleExplore_skips_illegal demoEngine demoSys0 demoLineBad 0
    demoSys0.chess.state.fen (by decide) (by decide) (by decide)

/-- C3: while exploration is active every mutating page action is a
rejected no-op: board moves return false, undo, new-game, resign and
history clicks leave the whole page state (game state included)
unchanged. -/
theorem exploring_guards_reject (e : Engine) (sys : GameSystem e)
    (f t : String) (c : Bool) (idx : Int) (h : sys.explo.isActive = true) :
    handleMove e sys f t = (sys, false) ∧
    handleUndo e sys = sys ∧
    handleNewGame e sys c = sys ∧
    handleResign e sys c = sys ∧
    handleMoveClick e sys idx = some sys := by
  refine ⟨?_, ?_, ?_, ?_, ?_⟩ <;>
    simp [handleMove, handleUndo, handleNewGame, handleResign, handleMoveClick, h]

/-- C3 witness in the concrete exploring state. -/
theorem exploring_guards_reject_witness :
    handleMove demoEngine demoSys2 "e7" "e5" = (demoSys2, false) ∧
    handleUndo demoEngine demoSys2 = demoSys2 ∧
    handleNewGame demoEngine demoSys2 true = demoSys2 ∧
    handleResign demoEngine demoSys2 true = demoSys2 ∧
    handleMoveClick demoEngine demoSys2 0 = some demoSys2 :=
  exploring_guards_reject demoEngine demoSys2 "e7" "e5" true 0 rfl

/-- C4: for an index inside the valid range whose history segment
replays, gotoMove keeps moveHistory, sets currentMoveIndex to the index
and sets the position to the replay of the history up to the index from
the initial position; for an index outside the range it returns with
nothing changed. -/
theorem gotoMove_replays_history (e : Engine) (g : ChessGame e) (idx : Int)
    (prs : List (String × e.Pos)) :
    (-1 ≤ idx → idx < (g.state.moveHistory.length : Int) →
      replayHist e e.init (g.state.moveHistory.take (idx + 1).toNat) = some prs →
      (gotoMove e g idx).map (fun x => x.state.moveHistory) = some g.state.moveHistory ∧
      (gotoMove e g idx).map (fun x => x.state.currentMoveIndex) = some idx ∧
      (gotoMove e g idx).map (fun x => x.state.fen) =
        replaySan e e.init (g.state.moveHistory.take (idx + 1).toNat)) ∧
    ((idx < -1 ∨ (g.state.moveHistory.length : Int) ≤ idx) →
      gotoMove e g idx = some g) := by
  constructor
  · intro h1 h2 hrep
    have hcond : ¬ (idx < -1 ∨ (g.state.moveHistory.length : Int) ≤ idx) := by omega
    unfold gotoMove
    rw [if_neg hcond, hrep]
    refine ⟨rfl, rfl, ?_⟩
    rw [replaySan_eq_replayHist, hrep]
    rfl
  · intro h
    unfold gotoMove
    rw [if_pos h]

/-- C4 witness: in the two-move demo game gotoMove 0 replays the first
move and gotoMove 5 is a no-op. -/
theorem gotoMove_replays_history_witness :
    ((gotoMove demoEngine demoCG2 0).map (fun x => x.state.moveHistory) =
        some demoCG2.state.moveHistory ∧
      (gotoMove demoEngine demoCG2 0).map (fun x => x.state.currentMoveIndex) = some 0 ∧
      (gotoMove demoEngine demoCG2 0).map (fun x => x.state.fen) =
        replaySan demoEngine demoEngine.init
          (demoCG2.state.moveHistory.take ((0 : Int) + 1).toNat)) ∧
    gotoMove demoEngine demoCG2 5 = some demoCG2 :=
  ⟨(gotoMove_replays_history demoEngine demoCG2 0 [("e4", ["e4"])]).1
      (by decide) (by decide) (by decide),
   (gotoMove_replays_history demoEngine demoCG2 5 []).2 (by decide)⟩

/-- C5: while exploring with a saved position, an in-bounds next click
moves currentPosition up by one and displays the position obtained by
replaying the line up to the new position from the saved position, and an
in-bounds previous click moves it down by one with the same stateless
replay from the saved position. -/
theorem exploration_nav_replays_from_saved (e : Engine) (sys : GameSystem e)
    (line : ChessLine) (sp q r : e.Pos)
    (hact : sys.explo.isActive = true)
    (hline : sys.explo.currentLine = some line)
    (hsp : sys.explo.savedFen = some sp) :
    (sys.explo.currentPosition + 1 < (line.moves.length : Int) →
      replayStrict e sp
        (line.moves.take (sys.explo.currentPosition + 1 + 1).toNat) = some q →
      (handleExplorationNext e sys).map (fun s => s.chess.state.fen) = some q ∧
      (handleExplorationNext e sys).map (fun s => s.explo.currentPosition) =
        some (sys.explo.currentPosition + 1)) ∧
    (0 < sys.explo.currentPosition →
      replayStrict e sp
        (line.moves.take (sys.explo.currentPosition - 1 + 1).toNat) = some r →
      (handleExplorationPrevious e sys).map (fun s => s.chess.state.fen) = some r ∧
      (handleExplorationPrevious e sys).map (fun s => s.explo.currentPosition) =
        some (sys.explo.currentPosition - 1)) := by
  constructor
  · intro hn hq
    unfold handleExplorationNext
    simp only [hline, hsp]
    have hcond : ¬ ((line.moves.length : Int) ≤ sys.explo.currentPosition + 1) := by omega
    rw [if_neg hcond]
    constructor
    · show some (replaySkip e sp
        (line.moves.take (sys.explo.currentPosition + 1 + 1).toNat)) = some q
      rw [skip_eq_of_strict e _ sp q hq]
    · show some (min (sys.explo.currentPosition + 1) (lineLenOr1 sys.explo.currentLine - 1)) =
        some (sys.explo.currentPosition + 1)
      rw [hline]
      congr 1
      simp only [lineLenOr1]
      split_ifs with h0 <;> rw [min_def] <;> split_ifs <;> omega
  · intro hp hr
    unfold handleExplorationPrevious
    simp only [hline, hsp]
    have hcond : ¬ (sys.explo.currentPosition ≤ 0) := by omega
    rw [if_neg hcond]
    constructor
    · show some (replaySkip e sp
        (line.moves.take (sys.explo.currentPosition - 1 + 1).toNat)) = some r
      rw [skip_eq_of_strict e _ sp r hr]
    · show some (max (sys.explo.currentPosition - 1) 0) =
        some (sys.explo.currentPosition - 1)
      congr 1
      rw [max_def]
      split_ifs <;> omega

/-- C5 witness: next at position 0 of the two-ply episode displays both
plies, previous at position 1 displays the first ply only. -/
theorem exploration_nav_replays_witness :
    ((handleExplorationNext demoEngine demoSysE).map
        (fun s => s.chess.state.fen) = some ["e4", "e5"] ∧
      (handleExplorationNext demoEngine demoSysE).map
        (fun s => s.explo.currentPosition) =
          some (demoSysE.explo.currentPosition + 1)) ∧
    ((handleExplorationPrevious demoEngine demoSysE2).map
        (fun s => s.chess.state.fen) = some ["e4"] ∧
      (handleExplorationPrevious demoEngine demoSysE2).map
        (fun s => s.explo.currentPosition) =
          some (demoSysE2.explo.currentPosition - 1)) :=
  ⟨(exploration_nav_replays_from_saved demoEngine demoSysE demoLine2 []
      ["e4", "e5"] [] rfl rfl rfl).1 (by decide) (by decide),
   (exploration_nav_replays_from_saved demoEngine demoSysE2 demoLine2 []
      [] ["e4"] rfl rfl rfl).2 (by decide) (by decide)⟩

/-- C6: a rejected board move, an invalid fen load and an invalid record
load each return false and leave the whole hook state (instance and
snapshot) untouched; every failure resolves to a boolean, never a thrown
fault, since the wrappers catch the engine. -/
theorem failing_ops_leave_state (e : Engine) (g : ChessGame e)
    (f t : String) (promo : Option String) (record : List String)
    (h1 : e.applyCoord (instCur e g.inst) ⟨f, t, some (promo.getD "q")⟩ = none)
    (h2 : replayHist e e.init record = none) :
    makeMove e g f t promo = (g, false) ∧
    loadFen e g none = (g, false) ∧
    loadPgn e g record = (g, false) := by
  refine ⟨?_, rfl, ?_⟩
  · unfold makeMove instMove
    rw [h1]
  · unfold loadPgn
    rw [h2]

/-- C6 witness: e7e5 is illegal from the initial position, and a record
containing an unknown move fails to load. -/
theorem failing_ops_leave_state_witness :
    makeMove demoEngine (initChessGame demoEngine) "e7" "e5" none =
      (initChessGame demoEngine, false) ∧
    loadFen demoEngine (initChessGame demoEngine) none =
      (initChessGame demoEngine, false) ∧
    loadPgn demoEngine (initChessGame demoEngine) ["xx"] =
      (initChessGame demoEngine, false) :=
  failing_ops_leave_state demoEngine (initChessGame demoEngine) "e7" "e5"
    none ["xx"] (by decide) (by decide)

/-- C7 counterexample: the claim says every successful undo on a
non-empty move history leaves the previous history minus its last entry.
After gotoMove 0 in a two-move game, undo succeeds (the instance history
holds one move) but publishes an empty history, not the two-move history
minus its last move. -/
theorem undo_after_goto_cex :
    demoCG2.state.moveHistory = ["e4", "e5"] ∧
    (gotoMove demoEngine demoCG2 0).map
      (fun x => (undoMove demoEngine x).2) = some true ∧
    (gotoMove demoEngine demoCG2 0).map
      (fun x => (undoMove demoEngine x).1.state.moveHistory) = some [] ∧
    (gotoMove demoEngine demoCG2 0).map
      (fun x => (undoMove demoEngine x).1.state.moveHistory) ≠
      some (["e4", "e5"].dropLast) := by
  decide

/-- C7 amended: when the session is at the head of its history (the
instance was built on the initial position and its recorded moves are
exactly the published history), a successful undo on a non-empty history
removes exactly the last record and the position equals the replay of the
remaining records from the initial position. -/
theorem undo_at_head_pops_last (e : Engine) (ms : List String)
    (prs : List (String × e.Pos)) (g : ChessGame e)
    (hrep : replayHist e e.init ms = some prs)
    (hinst : g.inst = { base := e.init, hist := prs })
    (hsync : g.state.moveHistory = ms)
    (hne : ms ≠ []) :
    (undoMove e g).2 = true ∧
    (undoMove e g).1.state.moveHistory = g.state.moveHistory.dropLast ∧
    replaySan e e.init (g.state.moveHistory.dropLast) =
      some ((undoMove e g).1.state.fen) := by
  have hmap := replayHist_map_fst e ms e.init prs hrep
  have hprsne : prs ≠ [] := by
    intro hp
    rw [hp] at hmap
    exact hne hmap.symm
  have hfalse : prs.isEmpty = false := by
    cases prs with
    | nil => exact absurd rfl hprsne
    | cons a l => rfl
  unfold undoMove instUndo
  rw [hinst]
  simp only [hfalse, Bool.false_eq_true, if_false]
  refine ⟨trivial, ?_, ?_⟩
  · show (prs.dropLast).map Prod.fst = g.state.moveHistory.dropLast
    rw [hsync, ← hmap, List.map_dropLast]
  · show replaySan e e.init (g.state.moveHistory.dropLast) =
      some (lastPos e e.init prs.dropLast)
    rw [hsync]
    exact replaySan_dropLast e ms e.init prs hrep

/-- C7 witness at the head of a one-move game. -/
theorem undo_at_head_pops_last_witness :
    (undoMove demoEngine demoCG1).2 = true ∧
    (undoMove demoEngine demoCG1).1.state.moveHistory =
      demoCG1.state.moveHistory.dropLast ∧
    replaySan demoEngine demoEngine.init (demoCG1.state.moveHistory.dropLast) =
      some ((undoMove demoEngine demoCG1).1.state.fen) :=
  undo_at_head_pops_last demoEngine ["e4"] [("e4", ["e4"])] demoCG1
    (by decide) rfl rfl (by decide)

/-- C8 counterexample: the claim bounds currentPosition by the interval
from 0 to length minus 1 for every episode; entering exploration of a
line with an empty move list puts currentPosition at 0, above the upper
bound -1 of that empty interval. -/
theorem currentPosition_bound_empty_line_cex :
    (enterExploration demoEngine demoLineEmpty [] (-1) []).isActive = true ∧
    ¬ ((enterExploration demoEngine demoLineEmpty [] (-1) []).currentPosition ≤
        (demoLineEmpty.moves.length : Int) - 1) := by
  decide

/-- C8 amended: for a line with at least one move, currentPosition stays
between 0 and length minus 1 after any sequence of next and previous
clicks from entry. -/
theorem currentPosition_stays_in_bounds (e : Engine) (line : ChessLine)
    (p : e.Pos) (idx : Int) (hist : List String) (ops : List Bool)
    (hne : line.moves ≠ []) :
    0 ≤ (ops.foldl (navStep e) (enterExploration e line p idx hist)).currentPosition ∧
    (ops.foldl (navStep e) (enterExploration e line p idx hist)).currentPosition ≤
      (line.moves.length : Int) - 1 := by
  have hlen : (1 : Int) ≤ (line.moves.length : Int) := by
    have : line.moves.length ≠ 0 := fun h0 => hne (List.length_eq_zero.mp h0)
    omega
  have h := navFold_inv e line hne ops (enterExploration e line p idx hist)
    rfl (by exact le_refl 0) (by show (0 : Int) ≤ _; omega)
  exact ⟨h.2.1, h.2.2⟩

/-- C8 witness: a mixed click sequence on the two-ply line. -/
theorem currentPosition_stays_in_bounds_witness :
    0 ≤ (([true, true, false, true]).foldl (navStep demoEngine)
      (enterExploration demoEngine demoLine2 [] (-1) [])).currentPosition ∧
    (([true, true, false, true]).foldl (navStep demoEngine)
      (enterExploration demoEngine demoLine2 [] (-1) [])).currentPosition ≤
      (demoLine2.moves.length : Int) - 1 :=
  currentPosition_stays_in_bounds demoEngine demoLine2 [] (-1) []
    [true, true, false, true] (by decide)

/-- C9: loading a valid record and reading the record back yields exactly
the record's move sequence. -/
theorem loadPgn_getPgn_round_trip (e : Engine) (g : ChessGame e)
    (record : List String) (prs : List (String × e.Pos))
    (h : replayHist e e.init record = some prs) :
    (loadPgn e g record).2 = true ∧
    getPgn e (loadPgn e g record).1 = record := by
  unfold loadPgn
  rw [h]
  exact ⟨rfl, replayHist_map_fst e record e.init prs h⟩

/-- C9 witness on a two-move record. -/
theorem loadPgn_getPgn_round_trip_witness :
    (loadPgn demoEngine (initChessGame demoEngine) ["e4", "e5"]).2 = true ∧
    getPgn demoEngine (loadPgn demoEngine (initChessGame demoEngine) ["e4", "e5"]).1 =
      ["e4", "e5"] :=
  loadPgn_getPgn_round_trip demoEngine (initChessGame demoEngine) ["e4", "e5"]
    [("e4", ["e4"]), ("e5", ["e4", "e5"])] (by decide)

/-- C10: undo on an instance with an empty recorded history (fresh game
or a position loaded from a bare fen) returns false and changes
nothing. -/
theorem undo_empty_history_noop (e : Engine) (g : ChessGame e)
    (h : g.inst.hist = []) : undoMove e g = (g, false) := by
  unfold undoMove instUndo
  rw [h]
  rfl

/-- C10 witness on the fresh game. -/
theorem undo_empty_history_noop_witness :
    undoMove demoEngine (initChessGame demoEngine) =
      (initChessGame demoEngine, false) :=
  undo_empty_history_noop demoEngine (initChessGame demoEngine) rfl
